import Mathlib

/-!
Verification of the dynamic-graph tutorial's specification against its code.

The repository ships the tutorial entity `InvertedPendulum` (its constructor,
accessors, signal and command registration appear as code excerpts in
`include/dynamic-graph/tutorial/doc.hh`).  The runtime primitives it builds on
(Signal, SignalPtr/SignalLink, Entity, Command, Factory, the value-cast
registry) come from the `dynamic-graph` package and are not part of this
repository's sources; following the spec, they are modelled here from the
spec's contracts.  Machine doubles are modelled as rationals, logical time as
integers, and the demand-driven pull evaluation as a fuel-indexed interpreter
over an explicit graph of signal nodes.
-/

namespace DGTutorial

/-- Modelled from the spec: the error kinds of section 7 (the runtime that
raises them is not under `src/`).  `outOfFuel` is an artefact of the
fuel-indexed interpreter standing in for unbounded recursion on cyclic
graphs, which the spec leaves unspecified. -/
inductive Err where
  | unboundSignal
  | unboundLink
  | staleInput
  | duplicateName
  | notFound
  | unknownClass
  | unregisteredType
  | arityMismatch
  | typeMismatch
  | outOfFuel
deriving DecidableEq, Repr

/-- Logical time: "a monotonically comparable time domain, typically integer";
the tutorial instantiates `Signal< Vector, int >`, so time is `Int`. -/
abbrev Time := Int

/-- Modelled from the spec: the state of one Signal node (the Signal class is
not under `src/`).  Attributes per the spec's data model: an optional constant
override, an optional compute function (with the upstream links it pulls, each
either bound to a producer node or unbound), the cached value with its
last-computed logical time, plus an instrumentation counter of compute-function
invocations used to state the memoization properties. -/
structure SigNode (V : Type) where
  const? : Option V := none
  comp? : Option (List (Option Nat) × (List V → V)) := none
  cache : Option (Time × V) := none
  count : Nat := 0

instance {V : Type} : Inhabited (SigNode V) := ⟨{}⟩

/-- A freshly constructed Signal: no constant, no compute function, no cache. -/
def SigNode.fresh (V : Type) : SigNode V := {}

/-- The signal graph: nodes indexed by `Nat`; unmentioned indices hold fresh
signals. -/
def Graph (V : Type) : Type := Nat → SigNode V

/-- Point update of one node of the graph. -/
def writeNode {V : Type} (g : Graph V) (i : Nat) (n : SigNode V) : Graph V :=
  fun j => if j = i then n else g j

/-- The cached value of a node, provided its cached time equals `t`. -/
def cachedAt {V : Type} (n : SigNode V) (t : Time) : Option V :=
  match n.cache with
  | some (tc, v) => if tc = t then some v else none
  | none => none

/-- The node after a compute-function invocation at time `t` producing `v`:
the result and the time are cached and the invocation counter increments. -/
def bump {V : Type} (n : SigNode V) (t : Time) (v : V) : SigNode V :=
  { n with cache := some (t, v), count := n.count + 1 }

/-- Modelled from the spec: a failed upstream pull surfaces to the consumer's
`get` as `StaleInputError` ("fails with StaleInputError if an upstream
dependency cannot produce a value"); fuel exhaustion stays transparent. -/
def wrapStale : Err → Err
  | .outOfFuel => .outOfFuel
  | _ => .staleInput

/-- Modelled from the spec: the pull of a compute function's upstream links,
left to right, by the supplied producer-evaluation function `getf`.  An
unbound link fails with `UnboundLinkError`; a bound link forwards to the
producer, propagating its result or failure. -/
def pullList {V : Type} (getf : Nat → Graph V → Except Err (V × Graph V)) :
    List (Option Nat) → Graph V → Except Err (List V × Graph V)
  | [], g => .ok ([], g)
  | d :: rest, g =>
    match d with
    | none => .error .unboundLink
    | some p =>
      match getf p g with
      | .error e => .error e
      | .ok (v, g1) =>
        match pullList getf rest g1 with
        | .error e => .error e
        | .ok (vs, g2) => .ok (v :: vs, g2)

/-- Modelled from the spec: `Signal::get(time)` (the Signal class is not under
`src/`).  Returns the cached value if `cachedTime == time`; otherwise, if a
constant is set, returns it unconditionally; otherwise invokes the bound
compute function, which pulls its upstream links at the same time, caches the
result and the time, and returns it; a signal with none of these fails with
`UnboundSignalError`.  State-passing: the updated graph is returned alongside
the value; a failure aborts the whole pull. -/
def get {V : Type} (fuel : Nat) (t : Time) (i : Nat) (g : Graph V) :
    Except Err (V × Graph V) :=
  match fuel with
  | 0 => .error .outOfFuel
  | fuel' + 1 =>
    match cachedAt (g i) t with
    | some v => .ok (v, g)
    | none =>
      match (g i).const? with
      | some v => .ok (v, g)
      | none =>
        match (g i).comp? with
        | some (deps, fn) =>
          match pullList (fun p g' => get fuel' t p g') deps g with
          | .error e => .error (wrapStale e)
          | .ok (vals, g1) =>
            let v := fn vals
            .ok (v, writeNode g1 i (bump (g1 i) t v))
        | none => .error .unboundSignal

/-- The pull of the upstream links of one compute function at time `t` with
the given fuel: `pullList` instantiated with `get`. -/
def pullDeps {V : Type} (fuel : Nat) (t : Time) (deps : List (Option Nat))
    (g : Graph V) : Except Err (List V × Graph V) :=
  pullList (fun p g' => get fuel t p g') deps g

/-- Modelled from the spec: `Signal::setConstant(value)` switches the Signal
into constant mode: subsequent `get` calls ignore time and always return this
value until overridden again; constant mode and compute mode are exclusive and
the cache is dropped with the mode switch ("a constant Signal never
recomputes"). -/
def setConstant {V : Type} (g : Graph V) (i : Nat) (v : V) : Graph V :=
  writeNode g i { const? := some v, comp? := none, cache := none,
                  count := (g i).count }

/-- Modelled from the spec: `Signal::setComputeFunction(fn)` installs the
recomputation behaviour and clears constant mode. -/
def setComputeFunction {V : Type} (g : Graph V) (i : Nat)
    (deps : List (Option Nat)) (fn : List V → V) : Graph V :=
  writeNode g i { const? := none, comp? := some (deps, fn), cache := none,
                  count := (g i).count }

/-- Modelled from the spec: a SignalLink, "a typed pointer-like binding from a
consuming entity to a producing Signal ... (or unbound)" (the SignalPtr class
is not under `src/`). -/
structure SignalLink where
  producer? : Option Nat := none

/-- Modelled from the spec: `bind(producerSignal)` attaches a producer; a link
may be rebound at any time. -/
def SignalLink.bind (_l : SignalLink) (p : Nat) : SignalLink := ⟨some p⟩

/-- Modelled from the spec: a SignalLink's `get(time)` forwards to the bound
producer's `get(time)`, propagating its result or failure; calling `get` while
unbound fails with `UnboundLinkError`. -/
def SignalLink.get {V : Type} (l : SignalLink) (fuel : Nat) (t : Time)
    (g : Graph V) : Except Err (V × Graph V) :=
  match l.producer? with
  | none => .error .unboundLink
  | some p => DGTutorial.get fuel t p g

/-- A two-node example graph: node 1 holds the constant `7`, node 0 computes
`1 +` the sum of its pulled upstream values through a link bound to node 1. -/
def exGraph : Graph Int := fun j =>
  if j = 1 then { const? := some 7 }
  else if j = 0 then
    { comp? := some ([some 1], fun vs => vs.foldl (· + ·) 1) }
  else if j = 3 then
    { comp? := some ([none], fun vs => vs.foldl (· + ·) 0) }
  else {}

/-- A rank function witnessing that `exGraph` is acyclic. -/
def exRank : Nat → Nat := fun j => if j = 0 then 1 else 0

/-- The indices of the bound upstream producers of node `i`. -/
def depsOf {V : Type} (g : Graph V) (i : Nat) : List Nat :=
  match (g i).comp? with
  | some (ds, _) => ds.filterMap id
  | none => []

/-- The evolution invariant of one pull at time `t`: every node is either
untouched, or (having had no cached value for `t`) had its compute function
invoked exactly once, caching some value for `t`. -/
def Evolves {V : Type} (t : Time) (g g' : Graph V) : Prop :=
  ∀ j, g' j = g j ∨ (cachedAt (g j) t = none ∧ ∃ v, g' j = bump (g j) t v)

/-- Reachability along bound dependency edges of the signal graph. -/
inductive Reach {V : Type} (g : Graph V) : Nat → Nat → Prop where
  | refl (i : Nat) : Reach g i i
  | step {i j k : Nat} : j ∈ depsOf g i → Reach g j k → Reach g i k

/-- Certificate that `r` is a rank function for the graph: every bound dependency edge strictly
decreases the rank.  Exhibiting one certifies the dependency graph acyclic
(the spec leaves cyclic graphs unspecified). -/
def Ranked {V : Type} (g : Graph V) (r : Nat → Nat) : Prop :=
  ∀ i j, j ∈ depsOf g i → r j < r i

/-- Modelled from the spec: the closed set of supported payload kinds of the
`Value` type used at Command boundaries. -/
inductive VKind where
  | double
  | int
  | string
  | bool
  | vector
deriving DecidableEq, Repr

/-- Modelled from the spec: a dynamically typed Command argument or result
(the `dynamicgraph::command::Value` class is not under `src/`); doubles are
modelled as rationals. -/
inductive Value where
  | double (x : ℚ)
  | int (n : Int)
  | string (s : String)
  | bool (b : Bool)
  | vector (v : List ℚ)
deriving DecidableEq, Repr

/-- The kind of a `Value`. -/
def Value.kind : Value → VKind
  | .double _ => .double
  | .int _ => .int
  | .string _ => .string
  | .bool _ => .bool
  | .vector _ => .vector

/-- Modelled from the spec: a Command bound to an entity-state type `P`, with
its fixed list of expected argument kinds and its bound side effect. -/
structure Command (P : Type) where
  signature : List VKind
  action : List Value → P → Except Err (Option Value × P)

/-- Modelled from the spec: `Command::execute` validates eagerly — it fails
with `ArityMismatch` if the argument count differs from the signature, then
with `TypeMismatch` if any argument's kind does not match the expected kind at
that position, and only then performs the bound action. -/
def Command.execute {P : Type} (c : Command P) (args : List Value) (p : P) :
    Except Err (Option Value × P) :=
  if args.length ≠ c.signature.length then .error .arityMismatch
  else if (args.zip c.signature).any (fun av => av.1.kind ≠ av.2) then
    .error .typeMismatch
  else c.action args p

/-- Modelled from the spec: `command::Setter<E, double>` — a command of
signature `(double)` wrapping a setter on the owning entity's state. -/
def Setter {P : Type} (set : P → ℚ → P) : Command P :=
  { signature := [.double],
    action := fun args p =>
      match args with
      | [.double x] => .ok (none, set p x)
      | _ => .error .typeMismatch }

/-- Modelled from the spec: `command::Getter<E, double>` — a command of empty
signature returning a double property of the owning entity's state. -/
def Getter {P : Type} (getp : P → ℚ) : Command P :=
  { signature := [],
    action := fun _ p => .ok (some (.double (getp p)), p) }

/-- Name-keyed lookup in an association list, first binding wins. -/
def lookupKey {α : Type} : List (String × α) → String → Option α
  | [], _ => none
  | (k, v) :: rest, key => if k = key then some v else lookupKey rest key

/-- Modelled from the spec: registration into a name-keyed registry; fails
with `DuplicateNameError` if the name already exists in that namespace, and
never overwrites the prior binding. -/
def registerUnique {α : Type} (m : List (String × α)) (k : String) (v : α) :
    Except Err (List (String × α)) :=
  match lookupKey m k with
  | some _ => .error .duplicateName
  | none => .ok (m ++ [(k, v)])

/-- Modelled from the spec: an Entity's owned name-keyed maps of Signals
(graph node indices) and Commands, in insertion order. -/
structure Entity (P : Type) where
  name : String
  signals : List (String × Nat) := []
  commands : List (String × Command P) := []

/-- Modelled from the spec: `Entity::signalRegistration` adds a Signal to the
owning map; fails with `DuplicateNameError` on a name collision. -/
def Entity.signalRegistration {P : Type} (e : Entity P) (signalName : String)
    (node : Nat) : Except Err (Entity P) :=
  match registerUnique e.signals signalName node with
  | .error er => .error er
  | .ok s => .ok { e with signals := s }

/-- Modelled from the spec: `Entity::addCommand` (registerCommand) adds a
Command to the owning map; fails with `DuplicateNameError` on a collision. -/
def Entity.addCommand {P : Type} (e : Entity P) (cmdName : String)
    (c : Command P) : Except Err (Entity P) :=
  match registerUnique e.commands cmdName c with
  | .error er => .error er
  | .ok cs => .ok { e with commands := cs }

/-- Modelled from the spec: an Entity as created by the Factory: its class
name (stable for the lifetime of the instance) and instance name. -/
structure FactoryEntity where
  className : String
  instanceName : String
deriving DecidableEq, Repr

/-- The `getClassName` of a created entity. -/
def FactoryEntity.getClassName (e : FactoryEntity) : String := e.className

/-- Modelled from the spec: the process-wide Factory mapping class names to
entity-construction capabilities. -/
structure Factory where
  classes : List (String × (String → FactoryEntity)) := []

/-- Modelled from the spec: `Factory.registerEntityType`; fails with
`DuplicateNameError` if the class name is already registered. -/
def Factory.registerEntityType (f : Factory) (className : String)
    (ctor : String → FactoryEntity) : Except Err Factory :=
  match registerUnique f.classes className ctor with
  | .error er => .error er
  | .ok cs => .ok ⟨cs⟩

/-- From doc.hh: `DYNAMICGRAPH_FACTORY_ENTITY_PLUGIN(C, name)` registers under
`name` a constructor whose instances carry `CLASS_NAME = name`. -/
def factoryPlugin (f : Factory) (className : String) : Except Err Factory :=
  Factory.registerEntityType f className
    (fun instName => ⟨className, instName⟩)

/-- Modelled from the spec: `Factory.create(className, instanceName)`; fails
with `UnknownClassError` if the class name was never registered. -/
def Factory.create (f : Factory) (className instanceName : String) :
    Except Err FactoryEntity :=
  match lookupKey f.classes className with
  | none => .error .unknownClass
  | some ctor => .ok (ctor instanceName)

/-- A well-formed Factory: every registered constructor stamps its instances
with the class name it was registered under (what the plugin macro
enforces). -/
def Factory.WF (f : Factory) : Prop :=
  ∀ c ctor, (c, ctor) ∈ f.classes → ∀ n, (ctor n).className = c

/-- Modelled from the spec: one cast entry of the value registry: the stream
write and read behaviours for one payload type. -/
structure ValueCast (V : Type) where
  writeFn : V → String
  readFn : String → Option V

/-- Modelled from the spec: the process-wide registry mapping a runtime type
identifier to its cast entry. -/
def ValueRegistry (V : Type) : Type := List (String × ValueCast V)

/-- Modelled from the spec: `registerCast` — fails with `DuplicateNameError`
on re-registration of the same payload type. -/
def registerCast {V : Type} (reg : ValueRegistry V) (typeId : String)
    (c : ValueCast V) : Except Err (ValueRegistry V) :=
  registerUnique reg typeId c

/-- The tutorial's `Vector` payload type, as a list of rationals. -/
abbrev Vec := List ℚ

/-- The `ZeroVector(n)` of the constructor excerpt in doc.hh. -/
def ZeroVector (n : Nat) : Vec := List.replicate n 0

/-- Componentwise vector sum. -/
def vadd (a b : Vec) : Vec := List.zipWith (· + ·) a b

/-- Scalar multiple of a vector. -/
def smul (c : ℚ) (a : Vec) : Vec := a.map (fun x => c * x)

/-- Modelled from the spec: one explicit-Euler integration step of the
out-of-scope dynamics `dyn`: `state + dt * dyn state force`. -/
def eulerStep (dyn : Vec → Vec → Vec) (state force : Vec) (dt : ℚ) : Vec :=
  vadd state (smul dt (dyn state force))

/-- The node index of `forceSIN` in an InvertedPendulum's signal graph. -/
def forceIdx : Nat := 0

/-- The node index of `stateSOUT` in an InvertedPendulum's signal graph. -/
def stateIdx : Nat := 1

/-- From doc.hh: the static member `CLASS_NAME`, instantiated by the plugin
macro as `"InvertedPendulum"`. -/
def CLASS_NAME : String := "InvertedPendulum"

/-- From doc.hh: class InvertedPendulum — the instance name, the name-keyed
signal registry in registration order, the four parameters, and the signal
graph holding `forceSIN` (node `forceIdx`) and `stateSOUT` (node
`stateIdx`). -/
structure InvertedPendulum where
  name : String
  signals : List (String × Nat)
  cartMass_ : ℚ
  pendulumMass_ : ℚ
  pendulumLength_ : ℚ
  viscosity_ : ℚ
  sigGraph : Graph Vec

/-- From doc.hh: `getClassName` returns `CLASS_NAME`. -/
def InvertedPendulum.getClassName (_p : InvertedPendulum) : String :=
  CLASS_NAME

/-- From doc.hh lines 154–174: the constructor — signals named by the
documented format and registered in order, parameters defaulted to
`cartMass_ = pendulumMass_ = pendulumLength_ = 1.0`, `viscosity_ = 0.1`, then
`stateSOUT.setConstant(ZeroVector(4))` and
`forceSIN.setConstant(ZeroVector(1))`. -/
def InvertedPendulum.construct (inName : String) : InvertedPendulum :=
  let g0 : Graph Vec := fun _ => {}
  let g1 := setConstant g0 stateIdx (ZeroVector 4)
  let g2 := setConstant g1 forceIdx (ZeroVector 1)
  { name := inName,
    signals :=
      [("InvertedPendulum(" ++ inName ++ ")::input(vector)::forcein",
        forceIdx),
       ("InvertedPendulum(" ++ inName ++ ")::output(vector)::state",
        stateIdx)],
    cartMass_ := 1,
    pendulumMass_ := 1,
    pendulumLength_ := 1,
    viscosity_ := 1 / 10,
    sigGraph := g2 }

/-- From doc.hh: `setCartMass`. -/
def InvertedPendulum.setCartMass (p : InvertedPendulum) (inMass : ℚ) :
    InvertedPendulum :=
  { p with cartMass_ := inMass }

/-- From doc.hh: `getCartMass`. -/
def InvertedPendulum.getCartMass (p : InvertedPendulum) : ℚ :=
  p.cartMass_

/-- Modelled from the spec: the body of the `"incr"` command
(`src/command-increment.h` is not under `src/`): executed with a double `dt`,
it reads the forcing input from `forceSIN.get` and the current state from
`stateSOUT`, advances the state by one explicit-Euler step of the dynamics
`dyn`, and overwrites `stateSOUT`'s constant with the new state. -/
def InvertedPendulum.incr (dyn : Vec → Vec → Vec) (p : InvertedPendulum)
    (dt : ℚ) (t : Time) (fuel : Nat) : Except Err InvertedPendulum :=
  match get fuel t forceIdx p.sigGraph with
  | .error e => .error e
  | .ok (force, g1) =>
    match get fuel t stateIdx g1 with
    | .error e => .error e
    | .ok (state, g2) =>
      .ok { p with
              sigGraph :=
                setConstant g2 stateIdx (eulerStep dyn state force dt) }

/-- The updated pendulum of the end-to-end witness scenario. -/
def pendulumAfterIncr : InvertedPendulum :=
  { InvertedPendulum.construct "p" with
      sigGraph :=
        setConstant (InvertedPendulum.construct "p").sigGraph stateIdx
          (eulerStep (fun _ _ => [1, 2, 3, 4]) (ZeroVector 4) (ZeroVector 1)
            (1 / 100)) }

/-- A one-class factory as left by the tutorial's plugin registration. -/
def fW : Factory :=
  ⟨[("InvertedPendulum",
     fun n => (⟨"InvertedPendulum", n⟩ : FactoryEntity))]⟩

/-- An entity with one registered signal and one registered command. -/
def eW : Entity Unit :=
  { name := "e",
    signals := [("sig", 0)],
    commands := [("cmd", Getter (fun _ => 0))] }

/-- A value registry with one registered cast. -/
def regW : ValueRegistry Int :=
  [("Vector", ⟨fun _ => "", fun _ => none⟩)]

theorem writeNode_same {V : Type} (g : Graph V) (i : Nat) (n : SigNode V) :
    writeNode g i n i = n := by
  simp [writeNode]

theorem writeNode_other {V : Type} (g : Graph V) (i j : Nat) (n : SigNode V)
    (h : j ≠ i) : writeNode g i n j = g j := by
  simp [writeNode, h]

theorem bump_comp {V : Type} (n : SigNode V) (t : Time) (v : V) :
    (bump n t v).comp? = n.comp? := rfl

theorem bump_const {V : Type} (n : SigNode V) (t : Time) (v : V) :
    (bump n t v).const? = n.const? := rfl

theorem cachedAt_bump {V : Type} (n : SigNode V) (t : Time) (v : V) :
    cachedAt (bump n t v) t = some v := by
  simp [cachedAt, bump]

theorem evolves_refl {V : Type} (t : Time) (g : Graph V) : Evolves t g g :=
  fun _ => Or.inl rfl

theorem evolves_depsOf {V : Type} {t : Time} {g g' : Graph V}
    (h : Evolves t g g') (i : Nat) : depsOf g' i = depsOf g i := by
  rcases h i with heq | ⟨_, v, heq⟩ <;> simp [depsOf, heq, bump_comp]

theorem evolves_trans {V : Type} {t : Time} {g1 g2 g3 : Graph V}
    (h12 : Evolves t g1 g2) (h23 : Evolves t g2 g3) : Evolves t g1 g3 := by
  intro j
  rcases h12 j with he12 | ⟨hc1, v, hb12⟩
  · rcases h23 j with he23 | ⟨hc2, w, hb23⟩
    · exact Or.inl (he23.trans he12)
    · exact Or.inr ⟨he12 ▸ hc2, w, (he12 ▸ hb23 : g3 j = bump (g1 j) t w)⟩
  · rcases h23 j with he23 | ⟨hc2, w, hb23⟩
    · exact Or.inr ⟨hc1, v, he23.trans hb12⟩
    · exfalso
      rw [hb12, cachedAt_bump] at hc2
      exact Option.noConfusion hc2

theorem reach_of_depsEq {V : Type} {g g' : Graph V}
    (hd : ∀ i, depsOf g' i = depsOf g i) {j k : Nat}
    (h : Reach g' j k) : Reach g j k := by
  induction h with
  | refl i => exact Reach.refl i
  | step hmem _ ih => exact Reach.step ((hd _) ▸ hmem) ih

theorem ranked_le_of_reach {V : Type} {g : Graph V} {r : Nat → Nat}
    (hr : Ranked g r) {j k : Nat} (h : Reach g j k) : r k ≤ r j := by
  induction h with
  | refl i => exact le_refl _
  | step hmem _ ih => exact ih.trans (le_of_lt (hr _ _ hmem))

theorem evolves_ranked {V : Type} {t : Time} {g g' : Graph V} {r : Nat → Nat}
    (h : Evolves t g g') (hr : Ranked g r) : Ranked g' r := by
  intro i j hmem
  exact hr i j ((evolves_depsOf h i) ▸ hmem)

theorem evolves_cached_stable {V : Type} {t : Time} {g g' : Graph V}
    (h : Evolves t g g') {j : Nat} {v : V} (hc : cachedAt (g j) t = some v) :
    g' j = g j := by
  rcases h j with heq | ⟨hnone, _, _⟩
  · exact heq
  · rw [hc] at hnone; exact Option.noConfusion hnone

theorem evolves_count_le {V : Type} {t : Time} {g g' : Graph V}
    (h : Evolves t g g') (j : Nat) : (g' j).count ≤ (g j).count + 1 := by
  rcases h j with heq | ⟨_, v, heq⟩ <;> simp [heq, bump]

theorem pullList_evolves {V : Type} {t : Time} {r : Nat → Nat}
    (getf : Nat → Graph V → Except Err (V × Graph V))
    (hgetf : ∀ (p : Nat) (g : Graph V) (v : V) (g' : Graph V),
      Ranked g r → getf p g = .ok (v, g') →
      Evolves t g g' ∧ ∀ j, g' j ≠ g j → Reach g p j) :
    ∀ (ds : List (Option Nat)) (g : Graph V) (vs : List V) (g' : Graph V),
      Ranked g r → pullList getf ds g = .ok (vs, g') →
      Evolves t g g' ∧
        ∀ j, g' j ≠ g j → ∃ p, p ∈ ds.filterMap id ∧ Reach g p j := by
  intro ds
  induction ds with
  | nil =>
    intro g vs g' _ hok
    simp only [pullList, Except.ok.injEq, Prod.mk.injEq] at hok
    obtain ⟨-, rfl⟩ := hok
    exact ⟨evolves_refl t g, fun j hj => absurd rfl hj⟩
  | cons d rest ih =>
    intro g vs g' hr hok
    cases d with
    | none => simp [pullList] at hok
    | some p =>
      rw [pullList] at hok
      cases hgp : getf p g with
      | error e => simp only [hgp] at hok; simp at hok
      | ok vg1 =>
        obtain ⟨v, g1⟩ := vg1
        simp only [hgp] at hok
        cases hrest : pullList getf rest g1 with
        | error e => simp only [hrest] at hok; simp at hok
        | ok vg2 =>
          obtain ⟨vs2, g2⟩ := vg2
          simp only [hrest] at hok
          simp only [Except.ok.injEq, Prod.mk.injEq] at hok
          obtain ⟨-, rfl⟩ := hok
          obtain ⟨hev1, hreach1⟩ := hgetf p g v g1 hr hgp
          obtain ⟨hev2, hreach2⟩ :=
            ih g1 vs2 g2 (evolves_ranked hev1 hr) hrest
          refine ⟨evolves_trans hev1 hev2, ?_⟩
          intro j hj
          by_cases h1 : g1 j = g j
          · have h2 : g2 j ≠ g1 j := fun h => hj (h.trans h1)
            obtain ⟨q, hq, hre⟩ := hreach2 j h2
            exact ⟨q, by simpa using Or.inr hq,
              reach_of_depsEq (evolves_depsOf hev1) hre⟩
          · exact ⟨p, by simp, hreach1 j h1⟩

theorem get_evolves {V : Type} {r : Nat → Nat} :
    ∀ (fuel : Nat) (t : Time) (i : Nat) (g : Graph V) (v : V) (g' : Graph V),
      Ranked g r → get fuel t i g = .ok (v, g') →
      Evolves t g g' ∧ ∀ j, g' j ≠ g j → Reach g i j := by
  intro fuel
  induction fuel with
  | zero => intro t i g v g' _ hok; simp [get] at hok
  | succ n ih =>
    intro t i g v g' hr hok
    rw [get] at hok
    cases hc : cachedAt (g i) t with
    | some v0 =>
      simp only [hc] at hok
      simp only [Except.ok.injEq, Prod.mk.injEq] at hok
      obtain ⟨-, rfl⟩ := hok
      exact ⟨evolves_refl t g, fun j hj => absurd rfl hj⟩
    | none =>
      simp only [hc] at hok
      cases hconst : (g i).const? with
      | some c =>
        simp only [hconst] at hok
        simp only [Except.ok.injEq, Prod.mk.injEq] at hok
        obtain ⟨-, rfl⟩ := hok
        exact ⟨evolves_refl t g, fun j hj => absurd rfl hj⟩
      | none =>
        simp only [hconst] at hok
        cases hcomp : (g i).comp? with
        | none => simp only [hcomp] at hok; simp at hok
        | some dsfn =>
          obtain ⟨ds, fn⟩ := dsfn
          simp only [hcomp] at hok
          cases hp : pullList (fun p g'' => get n t p g'') ds g with
          | error e => simp only [hp] at hok; simp at hok
          | ok valsg1 =>
            obtain ⟨vals, g1⟩ := valsg1
            simp only [hp] at hok
            simp only [Except.ok.injEq, Prod.mk.injEq] at hok
            obtain ⟨-, hg⟩ := hok
            obtain ⟨hev1, hreach1⟩ :=
              pullList_evolves (fun p g'' => get n t p g'')
                (fun p g0 v0 g0' hr0 hok0 => ih t p g0 v0 g0' hr0 hok0)
                ds g vals g1 hr hp
            have hdeps : depsOf g i = ds.filterMap id := by
              simp [depsOf, hcomp]
            have hg1i : g1 i = g i := by
              by_contra hne
              obtain ⟨p, hp', hre⟩ := hreach1 i hne
              have h1 : r p < r i := hr i p (hdeps ▸ hp')
              have h2 : r i ≤ r p := ranked_le_of_reach hr hre
              omega
            constructor
            · intro j
              by_cases hji : j = i
              · subst hji
                right
                refine ⟨hc, fn vals, ?_⟩
                rw [← hg, writeNode_same, hg1i]
              · have hj' : g' j = g1 j := by
                  rw [← hg, writeNode_other _ _ _ _ hji]
                rcases hev1 j with heq | ⟨hcn, w, hb⟩
                · exact Or.inl (hj'.trans heq)
                · exact Or.inr ⟨hcn, w, hj'.trans hb⟩
            · intro j hj
              by_cases hji : j = i
              · subst hji; exact Reach.refl j
              · have hj1 : g1 j ≠ g j := by
                  rw [← hg, writeNode_other _ _ _ _ hji] at hj
                  exact hj
                obtain ⟨p, hp', hre⟩ := hreach1 j hj1
                exact Reach.step (hdeps ▸ hp') hre

/-- A successful `get` leaves the signal able to answer the same request from
its cache: the second call returns the same value and changes nothing. -/
theorem get_again {V : Type} (fuel : Nat) (t : Time) (i : Nat)
    (g g' : Graph V) (v : V) (h : get fuel t i g = .ok (v, g')) :
    get fuel t i g' = .ok (v, g') := by
  cases fuel with
  | zero => simp [get] at h
  | succ n =>
    rw [get] at h
    cases hc : cachedAt (g i) t with
    | some v0 =>
      simp only [hc] at h
      simp only [Except.ok.injEq, Prod.mk.injEq] at h
      obtain ⟨rfl, rfl⟩ := h
      rw [get, hc]
    | none =>
      simp only [hc] at h
      cases hconst : (g i).const? with
      | some c =>
        simp only [hconst] at h
        simp only [Except.ok.injEq, Prod.mk.injEq] at h
        obtain ⟨rfl, rfl⟩ := h
        rw [get, hc, hconst]
      | none =>
        simp only [hconst] at h
        cases hcomp : (g i).comp? with
        | none => simp only [hcomp] at h; simp at h
        | some dsfn =>
          obtain ⟨ds, fn⟩ := dsfn
          simp only [hcomp] at h
          cases hp : pullList (fun p g'' => get n t p g'') ds g with
          | error e => simp only [hp] at h; simp at h
          | ok valsg1 =>
            obtain ⟨vals, g1⟩ := valsg1
            simp only [hp] at h
            simp only [Except.ok.injEq, Prod.mk.injEq] at h
            obtain ⟨hv, hg⟩ := h
            have hci : cachedAt (g' i) t = some v := by
              rw [← hg, writeNode_same, hv, cachedAt_bump]
            rw [get, hci]

/-- C1: for a Signal whose cached value is tagged with the requested time `t`,
`get t` returns the cached value without invoking any compute function; two
successive `get t` calls with no dependency change invoke the compute function
exactly once (the second returns the cached value and changes nothing); and
within one pull every transitively reachable upstream Signal is evaluated at
most once — each node's compute-invocation counter grows by at most one, and
the counter of the requested compute-mode Signal grows by exactly one. -/
theorem get_memoizes_by_time {V : Type} {r : Nat → Nat} {fuel : Nat}
    {t : Time} {i : Nat} {g g' : Graph V} {v : V}
    (hr : Ranked g r) (hok : get fuel t i g = .ok (v, g')) :
    (∀ v0, cachedAt (g i) t = some v0 → v = v0 ∧ g' = g) ∧
    get fuel t i g' = .ok (v, g') ∧
    (∀ j, (g' j).count ≤ (g j).count + 1) ∧
    ((g i).comp?.isSome → (g i).const? = none → cachedAt (g i) t = none →
      (g' i).count = (g i).count + 1) := by
  obtain ⟨hev, -⟩ := get_evolves fuel t i g v g' hr hok
  refine ⟨?_, get_again fuel t i g g' v hok, evolves_count_le hev, ?_⟩
  · intro v0 hc0
    cases fuel with
    | zero => simp [get] at hok
    | succ n =>
      simp only [get, hc0, Except.ok.injEq, Prod.mk.injEq] at hok
      exact ⟨hok.1.symm, hok.2.symm⟩
  · intro hcm hconst hc
    obtain ⟨⟨ds, fn⟩, hcomp⟩ := Option.isSome_iff_exists.mp hcm
    cases fuel with
    | zero => simp [get] at hok
    | succ n =>
      simp only [get, hc, hconst, hcomp] at hok
      cases hp : pullList (fun p g'' => get n t p g'') ds g with
      | error e =>
        simp only [hp] at hok
        exact Except.noConfusion hok
      | ok valsg1 =>
        obtain ⟨vals, g1⟩ := valsg1
        simp only [hp, Except.ok.injEq, Prod.mk.injEq] at hok
        obtain ⟨-, hg⟩ := hok
        have hci : cachedAt (g' i) t = some (fn vals) := by
          rw [← hg, writeNode_same, cachedAt_bump]
        rcases hev i with heq | ⟨-, w, hb⟩
        · rw [heq, hc] at hci
          exact Option.noConfusion hci
        · rw [hb]
          simp [bump]

/-- C2: after `setConstant v`, the Signal is in constant mode: for any two
distinct times `t1 ≠ t2`, `get` returns `v` at both (ignoring time), no
compute function is invoked (every invocation counter is unchanged, both by
`setConstant` itself and by the reads), and this holds until the constant is
overridden again — after a second `setConstant w`, `get` returns `w`. -/
theorem setConstant_constant_mode {V : Type} (g : Graph V) (i : Nat) (v : V)
    (fuel : Nat) (t1 t2 : Time) (_hne : t1 ≠ t2) :
    get (fuel + 1) t1 i (setConstant g i v) =
      .ok (v, setConstant g i v) ∧
    get (fuel + 1) t2 i (setConstant g i v) =
      .ok (v, setConstant g i v) ∧
    (∀ j, ((setConstant g i v) j).count = (g j).count) ∧
    (∀ (w : V) (t : Time),
      get (fuel + 1) t i (setConstant (setConstant g i v) i w) =
        .ok (w, setConstant (setConstant g i v) i w)) := by
  refine ⟨?_, ?_, ?_, ?_⟩
  · simp [get, setConstant, writeNode, cachedAt]
  · simp [get, setConstant, writeNode, cachedAt]
  · intro j
    by_cases hj : j = i <;> simp [setConstant, writeNode, hj]
  · intro w t
    simp [get, setConstant, writeNode, cachedAt]

/-- C7: `get` on a freshly constructed Signal — no constant, no compute
function, no cached value — fails with `UnboundSignalError` at every time. -/
theorem fresh_get_unbound {V : Type} (g : Graph V) (i : Nat)
    (h : g i = SigNode.fresh V) (t : Time) (fuel : Nat) :
    get (fuel + 1) t i g = .error .unboundSignal := by
  simp [get, h, SigNode.fresh, cachedAt]

/-- C8: a SignalLink fails with `UnboundLinkError` while unbound, at every
time; after `bind p` its `get` is exactly the bound producer's `get` (failures
included); and a rebound link queries whichever producer is currently
bound. -/
theorem signalLink_contract {V : Type} (fuel : Nat) (t : Time) (g : Graph V) :
    (∀ l : SignalLink, l.producer? = none →
      l.get fuel t g = (.error .unboundLink : Except Err (V × Graph V))) ∧
    (∀ (l : SignalLink) (p : Nat),
      (l.bind p).get fuel t g = get fuel t p g) ∧
    (∀ (l : SignalLink) (p q : Nat),
      ((l.bind p).bind q).get fuel t g = get fuel t q g) ∧
    (∀ (l : SignalLink) (p : Nat) (e : Err), get fuel t p g = .error e →
      (l.bind p).get fuel t g = (.error e : Except Err (V × Graph V))) := by
  refine ⟨?_, ?_, ?_, ?_⟩
  · intro l hl; simp [SignalLink.get, hl]
  · intro l p; simp [SignalLink.get, SignalLink.bind]
  · intro l p q; simp [SignalLink.get, SignalLink.bind]
  · intro l p e he; simp [SignalLink.get, SignalLink.bind, he]

/-- C9: when the pull of a compute-mode Signal's upstream dependencies fails,
the whole `get` call aborts with the failure surfaced (as `StaleInputError`):
no value — partial or stale — is returned in its place. -/
theorem dep_failure_aborts_get {V : Type} (fuel : Nat) (t : Time) (i : Nat)
    (g : Graph V) (ds : List (Option Nat)) (fn : List V → V) (e : Err)
    (hcache : cachedAt (g i) t = none) (hconst : (g i).const? = none)
    (hcomp : (g i).comp? = some (ds, fn))
    (hfail : pullDeps fuel t ds g = .error e) :
    get (fuel + 1) t i g = .error (wrapStale e) ∧
    ∀ (v : V) (g' : Graph V), get (fuel + 1) t i g ≠ .ok (v, g') := by
  simp only [pullDeps] at hfail
  have h1 : get (fuel + 1) t i g = .error (wrapStale e) := by
    simp only [get, hcache, hconst, hcomp, hfail]
  exact ⟨h1, fun v g' hok => by rw [h1] at hok; exact Except.noConfusion hok⟩

theorem exGraph_ranked : Ranked exGraph exRank := by
  intro i j h
  by_cases h1 : i = 1
  · simp [depsOf, exGraph, h1] at h
  · by_cases h0 : i = 0
    · simp [depsOf, exGraph, h0] at h
      subst h h0
      simp [exRank]
    · by_cases h3 : i = 3
      · simp [depsOf, exGraph, h3] at h
      · simp [depsOf, exGraph, h1, h0, h3] at h

/-- Witness for C1 on the concrete example graph: node 0 computes `8` from
the constant node 1, its counter increments exactly once, and the very result
graph answers the repeated request unchanged. -/
theorem get_memoizes_by_time_witness :
    Ranked exGraph exRank ∧
    get 2 0 0 exGraph = .ok (8, writeNode exGraph 0 (bump (exGraph 0) 0 8)) ∧
    ((writeNode exGraph 0 (bump (exGraph 0) 0 8)) 0).count =
      (exGraph 0).count + 1 ∧
    get 2 0 0 (writeNode exGraph 0 (bump (exGraph 0) 0 8)) =
      .ok (8, writeNode exGraph 0 (bump (exGraph 0) 0 8)) := by
  have hok : get 2 0 0 exGraph =
      .ok (8, writeNode exGraph 0 (bump (exGraph 0) 0 8)) := rfl
  have h := get_memoizes_by_time exGraph_ranked hok
  exact ⟨exGraph_ranked, hok, h.2.2.2 rfl rfl rfl, h.2.1⟩

/-- Witness for C2: setting node 2 of the example graph constant to `5` makes
`get` return `5` at the distinct times `0` and `1`. -/
theorem setConstant_constant_mode_witness :
    (0 : Time) ≠ 1 ∧
    get 1 0 2 (setConstant exGraph 2 5) = .ok (5, setConstant exGraph 2 5) ∧
    get 1 1 2 (setConstant exGraph 2 5) = .ok (5, setConstant exGraph 2 5) :=
  ⟨by decide,
   (setConstant_constant_mode exGraph 2 5 0 0 1 (by decide)).1,
   (setConstant_constant_mode exGraph 2 5 0 0 1 (by decide)).2.1⟩

/-- Witness for C7: node 5 of the example graph is fresh and `get` on it
fails with `UnboundSignalError`. -/
theorem fresh_get_unbound_witness :
    exGraph 5 = SigNode.fresh Int ∧
    get 1 0 5 exGraph = .error .unboundSignal :=
  ⟨rfl, fresh_get_unbound exGraph 5 rfl 0 0⟩

/-- Witness for C8: the unbound link fails with `UnboundLinkError` on the
example graph; once bound to node 1 it returns the producer's value. -/
theorem signalLink_contract_witness :
    (⟨none⟩ : SignalLink).producer? = none ∧
    SignalLink.get ⟨none⟩ 1 0 exGraph =
      (.error .unboundLink : Except Err (Int × Graph Int)) ∧
    SignalLink.get (SignalLink.bind ⟨none⟩ 1) 1 0 exGraph =
      get 1 0 1 exGraph :=
  ⟨rfl, (signalLink_contract 1 0 exGraph).1 ⟨none⟩ rfl,
   (signalLink_contract 1 0 exGraph).2.1 ⟨none⟩ 1⟩

/-- Witness for C9: node 3 of the example graph computes through an unbound
link; its dependency pull fails and `get` aborts with `StaleInputError`. -/
theorem dep_failure_aborts_get_witness :
    pullDeps 1 0 [(none : Option Nat)] exGraph =
      (.error .unboundLink : Except Err (List Int × Graph Int)) ∧
    get 2 0 3 exGraph = .error .staleInput :=
  ⟨rfl,
   (dep_failure_aborts_get 1 0 3 exGraph [none]
     (fun vs => vs.foldl (· + ·) 0) .unboundLink rfl rfl rfl rfl).1⟩

theorem get_setConstant {V : Type} (g : Graph V) (i : Nat) (v : V)
    (fuel : Nat) (t : Time) :
    get (fuel + 1) t i (setConstant g i v) = .ok (v, setConstant g i v) := by
  simp [get, setConstant, writeNode, cachedAt]

theorem lookupKey_mem {α : Type} :
    ∀ (m : List (String × α)) (k : String) (v : α),
      lookupKey m k = some v → (k, v) ∈ m := by
  intro m
  induction m with
  | nil => intro k v h; simp [lookupKey] at h
  | cons kv rest ih =>
    intro k v h
    obtain ⟨k0, v0⟩ := kv
    rw [lookupKey] at h
    by_cases hk : k0 = k
    · rw [if_pos hk] at h
      obtain rfl := Option.some.inj h
      subst hk
      exact List.mem_cons_self _ _
    · rw [if_neg hk] at h
      exact List.mem_cons_of_mem _ (ih k v h)

/-- C4: `Command::execute` fails with `ArityMismatch` whenever the argument
count differs from the declared signature, fails with `TypeMismatch` whenever
some argument's kind differs from the expected kind at its position, and on a
correctly typed invocation succeeds: executing the `setCartMass` Setter with a
double `x` stores `x`, after which the `getCartMass` Getter returns that same
`x`. -/
theorem command_execute_checks (p : InvertedPendulum) (x : ℚ) :
    (∀ {P : Type} (c : Command P) (args : List Value) (st : P),
      args.length ≠ c.signature.length →
      c.execute args st = .error .arityMismatch) ∧
    (∀ {P : Type} (c : Command P) (args : List Value) (st : P),
      args.length = c.signature.length →
      (args.zip c.signature).any (fun av => av.1.kind ≠ av.2) →
      c.execute args st = .error .typeMismatch) ∧
    (Setter InvertedPendulum.setCartMass).execute [.double x] p =
      .ok (none, p.setCartMass x) ∧
    (Getter InvertedPendulum.getCartMass).execute [] (p.setCartMass x) =
      .ok (some (.double x), p.setCartMass x) := by
  refine ⟨?_, ?_, ?_, ?_⟩
  · intro P c args st h
    simp [Command.execute, h]
  · intro P c args st h1 h2
    unfold Command.execute
    rw [if_neg (fun hx => hx h1), if_pos h2]
  · rfl
  · rfl

/-- C5: on a well-formed Factory, `create(C, n)` for a registered class name
`C` returns an entity whose `getClassName()` equals `C`, while `create` on a
never-registered class name fails with `UnknownClassError`; the plugin-macro
registration preserves well-formedness. -/
theorem factory_create_round_trip (f : Factory) (hWF : Factory.WF f)
    (klass instName other : String) :
    (∀ ctor, lookupKey f.classes klass = some ctor →
      ∃ ent, f.create klass instName = .ok ent ∧
        ent.getClassName = klass) ∧
    (lookupKey f.classes other = none →
      f.create other instName = .error .unknownClass) ∧
    (∀ f', factoryPlugin f klass = .ok f' → Factory.WF f') := by
  refine ⟨?_, ?_, ?_⟩
  · intro ctor hc
    refine ⟨ctor instName, ?_, ?_⟩
    · unfold Factory.create
      rw [hc]
    · exact hWF klass ctor (lookupKey_mem _ _ _ hc) instName
  · intro h
    unfold Factory.create
    rw [h]
  · intro f' h
    simp only [factoryPlugin, Factory.registerEntityType, registerUnique] at h
    cases hl : lookupKey f.classes klass with
    | some c =>
      simp only [hl] at h
      exact Except.noConfusion h
    | none =>
      simp only [hl, Except.ok.injEq] at h
      subst h
      intro c ctor hmem n
      rcases List.mem_append.mp hmem with h1 | h2
      · exact hWF c ctor h1 n
      · simp only [List.mem_singleton, Prod.mk.injEq] at h2
        obtain ⟨rfl, rfl⟩ := h2
        rfl

/-- C6: registering a second entry under an already-used name fails with
`DuplicateNameError` in each registry — an Entity's signals, an Entity's
commands, the Factory's class names, the value-cast registry — and a
registration can only ever succeed when the name was absent, so the prior
binding is never overwritten. -/
theorem duplicate_registration_rejected {P V : Type} (e : Entity P)
    (sName : String) (i0 i1 : Nat)
    (hs : lookupKey e.signals sName = some i0)
    (cName : String) (c0 c1 : Command P)
    (hc : lookupKey e.commands cName = some c0)
    (f : Factory) (klass : String) (ctor0 ctor1 : String → FactoryEntity)
    (hf : lookupKey f.classes klass = some ctor0)
    (reg : ValueRegistry V) (typeId : String) (cast0 cast1 : ValueCast V)
    (hr : lookupKey reg typeId = some cast0) :
    e.signalRegistration sName i1 = .error .duplicateName ∧
    e.addCommand cName c1 = .error .duplicateName ∧
    f.registerEntityType klass ctor1 = .error .duplicateName ∧
    registerCast reg typeId cast1 = .error .duplicateName ∧
    (∀ (m : List (String × Nat)) (k : String) (v : Nat)
        (m' : List (String × Nat)),
      registerUnique m k v = .ok m' → lookupKey m k = none) := by
  refine ⟨?_, ?_, ?_, ?_, ?_⟩
  · simp [Entity.signalRegistration, registerUnique, hs]
  · simp [Entity.addCommand, registerUnique, hc]
  · simp [Factory.registerEntityType, registerUnique, hf]
  · simp [registerCast, registerUnique, hr]
  · intro m k v m' h
    cases hl : lookupKey m k with
    | none => rfl
    | some w => simp [registerUnique, hl] at h

/-- C3: on a freshly constructed InvertedPendulum, one execution of the
`incr` body with time step `dt` yields a pendulum whose `stateSOUT`, read at
any time `T` whatsoever, returns the state advanced by one explicit-Euler step
from the initial constants `[0,0,0,0]` and `[0]` (held as a constant
override, hence time-independent). -/
theorem incr_updates_state (dyn : Vec → Vec → Vec) (inName : String)
    (dt : ℚ) (t0 : Time) (fuel : Nat) (p' : InvertedPendulum)
    (h : InvertedPendulum.incr dyn (InvertedPendulum.construct inName) dt t0
      (fuel + 1) = .ok p') :
    ∀ (T : Time) (fuel' : Nat),
      get (fuel' + 1) T stateIdx p'.sigGraph =
        .ok (eulerStep dyn (ZeroVector 4) (ZeroVector 1) dt, p'.sigGraph) := by
  intro T fuel'
  have h1 : get (fuel + 1) t0 forceIdx
      (InvertedPendulum.construct inName).sigGraph =
      .ok (ZeroVector 1, (InvertedPendulum.construct inName).sigGraph) := by
    simp [get, InvertedPendulum.construct, setConstant, writeNode, cachedAt,
      forceIdx, stateIdx]
  have h2 : get (fuel + 1) t0 stateIdx
      (InvertedPendulum.construct inName).sigGraph =
      .ok (ZeroVector 4, (InvertedPendulum.construct inName).sigGraph) := by
    simp [get, InvertedPendulum.construct, setConstant, writeNode, cachedAt,
      forceIdx, stateIdx]
  simp only [InvertedPendulum.incr, h1, h2, Except.ok.injEq] at h
  subst h
  exact get_setConstant _ _ _ _ _

/-- C10: for every instance name, the InvertedPendulum constructor leaves the
same initial state: `cartMass_`, `pendulumMass_` and `pendulumLength_` are
`1`, `viscosity_` is `1/10`, and both signals are in constant mode —
`stateSOUT` holding the zero vector of dimension 4 and `forceSIN` the zero
vector of dimension 1, each returned by `get` at every time. -/
theorem construct_initial_state (inName : String) :
    (InvertedPendulum.construct inName).cartMass_ = 1 ∧
    (InvertedPendulum.construct inName).pendulumMass_ = 1 ∧
    (InvertedPendulum.construct inName).pendulumLength_ = 1 ∧
    (InvertedPendulum.construct inName).viscosity_ = 1 / 10 ∧
    ((InvertedPendulum.construct inName).sigGraph stateIdx).const? =
      some (ZeroVector 4) ∧
    ((InvertedPendulum.construct inName).sigGraph stateIdx).comp? = none ∧
    ((InvertedPendulum.construct inName).sigGraph forceIdx).const? =
      some (ZeroVector 1) ∧
    ((InvertedPendulum.construct inName).sigGraph forceIdx).comp? = none ∧
    (∀ (T : Time) (fuel : Nat),
      get (fuel + 1) T stateIdx
        (InvertedPendulum.construct inName).sigGraph =
        .ok (ZeroVector 4, (InvertedPendulum.construct inName).sigGraph)) ∧
    (∀ (T : Time) (fuel : Nat),
      get (fuel + 1) T forceIdx
        (InvertedPendulum.construct inName).sigGraph =
        .ok (ZeroVector 1, (InvertedPendulum.construct inName).sigGraph)) := by
  refine ⟨rfl, rfl, rfl, rfl, rfl, rfl, rfl, rfl, ?_, ?_⟩
  · intro T fuel
    simp [get, InvertedPendulum.construct, setConstant, writeNode, cachedAt,
      forceIdx, stateIdx]
  · intro T fuel
    simp [get, InvertedPendulum.construct, setConstant, writeNode, cachedAt,
      forceIdx, stateIdx]

/-- Witness for C3: the end-to-end scenario with `dt = 1/100` and the sample
dynamics returning `[1,2,3,4]`: one `incr` then `stateSOUT.get 5` returns the
Euler-updated vector `[1/100, 1/50, 3/100, 1/25]`. -/
theorem incr_updates_state_witness :
    InvertedPendulum.incr (fun _ _ => [1, 2, 3, 4])
      (InvertedPendulum.construct "p") (1 / 100) 0 1 =
      .ok pendulumAfterIncr ∧
    get 1 5 stateIdx pendulumAfterIncr.sigGraph =
      .ok (eulerStep (fun _ _ => [1, 2, 3, 4]) (ZeroVector 4) (ZeroVector 1)
        (1 / 100), pendulumAfterIncr.sigGraph) ∧
    eulerStep (fun _ _ => [1, 2, 3, 4]) (ZeroVector 4) (ZeroVector 1)
      (1 / 100) = [1 / 100, 1 / 50, 3 / 100, 1 / 25] :=
  ⟨rfl,
   incr_updates_state (fun _ _ => [1, 2, 3, 4]) "p" (1 / 100) 0 0
     pendulumAfterIncr rfl 5 0,
   by norm_num [eulerStep, vadd, smul, ZeroVector, List.replicate,
     List.zipWith]⟩

/-- Witness for C4: the `(double)`-signature `setCartMass` Setter rejects zero
arguments with `ArityMismatch` and a string argument with `TypeMismatch`, and
the round trip through the Getter returns the stored `3`. -/
theorem command_execute_checks_witness :
    ([] : List Value).length ≠
      (Setter InvertedPendulum.setCartMass).signature.length ∧
    (Setter InvertedPendulum.setCartMass).execute []
      (InvertedPendulum.construct "w") = .error .arityMismatch ∧
    (Setter InvertedPendulum.setCartMass).execute [.string "s"]
      (InvertedPendulum.construct "w") = .error .typeMismatch ∧
    (Setter InvertedPendulum.setCartMass).execute [.double 3]
      (InvertedPendulum.construct "w") =
      .ok (none, (InvertedPendulum.construct "w").setCartMass 3) ∧
    (Getter InvertedPendulum.getCartMass).execute []
      ((InvertedPendulum.construct "w").setCartMass 3) =
      .ok (some (.double 3), (InvertedPendulum.construct "w").setCartMass 3) :=
  ⟨by decide,
   (command_execute_checks (InvertedPendulum.construct "w") 3).1 _ _ _
     (by decide),
   (command_execute_checks (InvertedPendulum.construct "w") 3).2.1 _ _ _
     rfl (by decide),
   (command_execute_checks (InvertedPendulum.construct "w") 3).2.2.1,
   (command_execute_checks (InvertedPendulum.construct "w") 3).2.2.2⟩

/-- Witness for C5: in the factory holding the tutorial's plugin
registration, creating `("InvertedPendulum", "bar")` yields an entity of that
class name, and creating an unknown class fails. -/
theorem factory_create_round_trip_witness :
    Factory.WF fW ∧
    lookupKey fW.classes "InvertedPendulum" =
      some (fun n => (⟨"InvertedPendulum", n⟩ : FactoryEntity)) ∧
    (∃ ent, Factory.create fW "InvertedPendulum" "bar" = .ok ent ∧
      ent.getClassName = "InvertedPendulum") ∧
    lookupKey fW.classes "Unknown" = none ∧
    Factory.create fW "Unknown" "x" = .error .unknownClass := by
  have hWF : Factory.WF fW := by
    intro c ctor hmem n
    simp only [fW, List.mem_singleton, Prod.mk.injEq] at hmem
    obtain ⟨rfl, rfl⟩ := hmem
    rfl
  refine ⟨hWF, rfl, ?_, rfl, ?_⟩
  · exact (factory_create_round_trip fW hWF "InvertedPendulum" "bar"
      "Unknown").1 _ rfl
  · exact (factory_create_round_trip fW hWF "InvertedPendulum" "bar"
      "Unknown").2.1 rfl

/-- Witness for C6: each of the four registries rejects a duplicate name. -/
theorem duplicate_registration_rejected_witness :
    lookupKey eW.signals "sig" = some 0 ∧
    eW.signalRegistration "sig" 1 = .error .duplicateName ∧
    eW.addCommand "cmd" (Getter (fun _ => 1)) = .error .duplicateName ∧
    fW.registerEntityType "InvertedPendulum" (fun n => ⟨"X", n⟩) =
      .error .duplicateName ∧
    registerCast regW "Vector" ⟨fun _ => "x", fun _ => none⟩ =
      .error .duplicateName := by
  have h := duplicate_registration_rejected eW "sig" 0 1 rfl "cmd"
    (Getter (fun _ => 0)) (Getter (fun _ => 1)) rfl fW "InvertedPendulum"
    (fun n => (⟨"InvertedPendulum", n⟩ : FactoryEntity)) (fun n => ⟨"X", n⟩)
    rfl regW "Vector" ⟨fun _ => "", fun _ => none⟩
    ⟨fun _ => "x", fun _ => none⟩ rfl
  exact ⟨rfl, h.1, h.2.1, h.2.2.1, h.2.2.2.1⟩

end DGTutorial
